import Mathlib

/-!
Verification of the task-parsing and greedy day-distribution core of the
scheduling dashboard (`src/app.py`).

The embedding translates the two Python functions `parse_tasks` and
`distribute_tasks` into Lean, together with models of the Python string and
number primitives they rely on (`str.splitlines`, `str.strip`,
`str.split("|")`, `float(...)`, `datetime.strptime(..., "%Y-%m-%d")`).

Numeric model: Python `float` values are embedded as exact rationals (`ℚ`).
The repository only ever compares, adds and subtracts small decimal values,
for which binary64 arithmetic is exact, so rounding is not modelled.  The
special spellings `inf`/`infinity`/`nan` accepted by Python's `float` lie
outside this numeric domain and are not modelled; digits are modelled as
ASCII digits.
-/

namespace App

/-- A calendar date as produced by `datetime.strptime(value, "%Y-%m-%d").date()`. -/
structure PyDate where
  year : Nat
  month : Nat
  day : Nat
deriving DecidableEq, Repr

/-- Simple representation of a task in the schedule (dataclass `Task`). -/
structure Task where
  name : String
  hours : ℚ
  due_date : Option PyDate
deriving DecidableEq, Repr

/-- Represents parsed tasks and any validation errors (dataclass `ParseResult`). -/
structure ParseResult where
  tasks : List Task
  errors : List String
deriving DecidableEq, Repr

/-! ## Day distributor (`distribute_tasks`) -/

/-- The label `f"Day {day_index + 1}"`. -/
def dayLabel (day_index : Nat) : String := "Day " ++ toString (day_index + 1)

/-- The loop of `distribute_tasks`, one step per task, carrying the loop state
`scheduled`, `day_index`, `remaining`, `current_day`; after the loop the
non-empty `current_day` is appended.  Each step first closes the current day
when the task would overflow `remaining` (and the day is non-empty) or is too
large for any day, then places the task, then closes the day again when the
task is too large for any day. -/
def distributeGo (hours_per_day : ℚ) :
    List Task → List (String × List Task) → Nat → ℚ → List Task →
    List (String × List Task)
  | [], scheduled, day_index, _remaining, current_day =>
      if current_day.isEmpty then scheduled
      else scheduled ++ [(dayLabel day_index, current_day)]
  | task :: rest, scheduled, day_index, remaining, current_day =>
      let too_large_for_day := decide (hours_per_day < task.hours)
      if (decide (remaining < task.hours) && !current_day.isEmpty) || too_large_for_day then
        if too_large_for_day then
          distributeGo hours_per_day rest
            ((scheduled ++ [(dayLabel day_index, current_day)]) ++
              [(dayLabel (day_index + 1), [task])])
            (day_index + 2) hours_per_day []
        else
          distributeGo hours_per_day rest (scheduled ++ [(dayLabel day_index, current_day)])
            (day_index + 1) (hours_per_day - task.hours) [task]
      else
        if too_large_for_day then
          distributeGo hours_per_day rest
            (scheduled ++ [(dayLabel day_index, current_day ++ [task])])
            (day_index + 1) hours_per_day []
        else
          distributeGo hours_per_day rest scheduled day_index
            (remaining - task.hours) (current_day ++ [task])

/-- Greedy distribution of tasks across days (`distribute_tasks`). -/
def distribute_tasks (tasks : List Task) (hours_per_day : ℚ) :
    List (String × List Task) :=
  if tasks.isEmpty then []
  else distributeGo hours_per_day tasks [] 0 hours_per_day []

/-- The schedule produced when every task is strictly larger than the daily
capacity: each task yields an empty bucket (closed before placing) followed by
a singleton bucket holding the task. -/
def oversizedSchedule : Nat → List Task → List (String × List Task)
  | _, [] => []
  | d, t :: rest =>
      (dayLabel d, []) :: (dayLabel (d + 1), [t]) :: oversizedSchedule (d + 2) rest

lemma distributeGo_map_snd_join (cap : ℚ) (ts : List Task) :
    ∀ sched d r cur,
      ((distributeGo cap ts sched d r cur).map Prod.snd).flatten =
        (sched.map Prod.snd).flatten ++ cur ++ ts := by
  induction ts with
  | nil =>
      intro sched d r cur
      simp only [distributeGo]
      split
      · next h => simp [List.isEmpty_iff.mp h]
      · simp
  | cons t rest ih =>
      intro sched d r cur
      simp only [distributeGo]
      split
      · split
        · rw [ih]; simp
        · rw [ih]; simp
      · split
        · rw [ih]; simp
        · rw [ih]; simp [List.append_assoc]

lemma distributeGo_oversized (cap : ℚ) (ts : List Task) (h : ∀ t ∈ ts, cap < t.hours) :
    ∀ sched d r, distributeGo cap ts sched d r [] = sched ++ oversizedSchedule d ts := by
  induction ts with
  | nil => intro sched d r; simp [distributeGo, oversizedSchedule]
  | cons t rest ih =>
      intro sched d r
      have ht : cap < t.hours := h t (List.mem_cons_self _ _)
      have hrest : ∀ x ∈ rest, cap < x.hours := fun x hx => h x (List.mem_cons_of_mem _ hx)
      simp [distributeGo, oversizedSchedule, ht, ih hrest]

lemma oversizedSchedule_buckets (ts : List Task) :
    ∀ d, ∀ b ∈ oversizedSchedule d ts, b.2.length ≤ 1 := by
  induction ts with
  | nil => intro d b hb; simp [oversizedSchedule] at hb
  | cons t rest ih =>
      intro d b hb
      simp only [oversizedSchedule, List.mem_cons] at hb
      rcases hb with h | h | h
      · simp [h]
      · simp [h]
      · exact ih (d + 2) b h

/-- C1: for every list of tasks and every capacity, the concatenation of the
bucket contents of `distribute_tasks` is exactly the input list (so no task is
dropped, duplicated or moved out of input order), and the total number of
tasks across buckets equals the length of the input. -/
theorem C1_distribute_partition (tasks : List Task) (capacity : ℚ) :
    ((distribute_tasks tasks capacity).map Prod.snd).flatten = tasks ∧
    ((distribute_tasks tasks capacity).map (fun b => b.2.length)).sum = tasks.length := by
  have h : ((distribute_tasks tasks capacity).map Prod.snd).flatten = tasks := by
    unfold distribute_tasks
    split
    · next he => simp [List.isEmpty_iff.mp he]
    · rw [distributeGo_map_snd_join]; simp
  refine ⟨h, ?_⟩
  have hlen := congrArg List.length h
  rw [List.length_flatten, List.map_map] at hlen
  simpa [Function.comp] using hlen

/-- C2 counterexample: with capacity 6, the single oversized task of 10 hours
is not placed in a bucket labeled "Day 1" (that bucket is empty), and when a
2-hour task follows, the 2-hour task is not placed in the bucket labeled
"Day 2". -/
theorem C2_counterexample :
    ("Day 1", ([⟨"big", 10, none⟩] : List Task)) ∉
        distribute_tasks [⟨"big", 10, none⟩] 6 ∧
    ("Day 2", ([⟨"s", 2, none⟩] : List Task)) ∉
        distribute_tasks [⟨"big", 10, none⟩, ⟨"s", 2, none⟩] 6 := by
  have h1 : distribute_tasks [⟨"big", 10, none⟩] 6 =
      [("Day 1", []), ("Day 2", [⟨"big", 10, none⟩])] := by
    norm_num [distribute_tasks, distributeGo]
    decide
  have h2 : distribute_tasks [⟨"big", 10, none⟩, ⟨"s", 2, none⟩] 6 =
      [("Day 1", []), ("Day 2", [⟨"big", 10, none⟩]), ("Day 3", [⟨"s", 2, none⟩])] := by
    norm_num [distribute_tasks, distributeGo]
    decide
  rw [h1, h2]
  constructor
  · intro hmem; simp at hmem
  · intro hmem; simp at hmem

/-- C2 amended: with capacity 6, a lone oversized 10-hour task causes the
(empty) current day to close first, so the schedule is an empty "Day 1"
bucket followed by the oversized task alone in "Day 2"; a following 2-hour
task starts a fresh day "Day 3" (whose used hours are 2, leaving 4 of the 6
available). -/
theorem C2_amended :
    distribute_tasks [⟨"big", 10, none⟩] 6 =
      [("Day 1", []), ("Day 2", [⟨"big", 10, none⟩])] ∧
    distribute_tasks [⟨"big", 10, none⟩, ⟨"s", 2, none⟩] 6 =
      [("Day 1", []), ("Day 2", [⟨"big", 10, none⟩]), ("Day 3", [⟨"s", 2, none⟩])] := by
  constructor
  · norm_num [distribute_tasks, distributeGo]
    decide
  · norm_num [distribute_tasks, distributeGo]
    decide

/-- C3: five tasks with hours 2, 4, 3, 1, 2 at capacity 6 yield exactly two
buckets, "Day 1" with the 2- and 4-hour tasks and "Day 2" with the 3-, 1- and
2-hour tasks: a task whose hours exactly equal the remaining capacity stays
in the current day (the overflow comparison is strict). -/
theorem C3_exact_fit_boundary :
    distribute_tasks
      [⟨"t1", 2, none⟩, ⟨"t2", 4, none⟩, ⟨"t3", 3, none⟩,
       ⟨"t4", 1, none⟩, ⟨"t5", 2, none⟩] 6 =
      [("Day 1", [⟨"t1", 2, none⟩, ⟨"t2", 4, none⟩]),
       ("Day 2", [⟨"t3", 3, none⟩, ⟨"t4", 1, none⟩, ⟨"t5", 2, none⟩])] := by
  norm_num [distribute_tasks, distributeGo]
  decide

/-- C4 counterexample: at capacity 0 (non-positive) two zero-hour tasks are
not treated as oversized (`0 > 0` is false), and both land in one bucket, so
the schedule does not assign exactly one task per bucket. -/
theorem C4_counterexample :
    ¬ (∀ b ∈ distribute_tasks [⟨"z1", 0, none⟩, ⟨"z2", 0, none⟩] (0 : ℚ),
        b.2.length = 1) := by
  have he : distribute_tasks [⟨"z1", 0, none⟩, ⟨"z2", 0, none⟩] (0 : ℚ) =
      [("Day 1", [⟨"z1", 0, none⟩, ⟨"z2", 0, none⟩])] := by
    norm_num [distribute_tasks, distributeGo]
    all_goals decide
  intro h
  have := h ("Day 1", [⟨"z1", 0, none⟩, ⟨"z2", 0, none⟩]) (by rw [he]; simp)
  simp at this

/-- C4 amended: for a non-positive capacity and a non-empty task list in which
every task's hours strictly exceed the capacity (this excludes zero-hour
tasks at capacity exactly 0, which are not oversized), every task is treated
as globally oversized: the schedule alternates an empty bucket and a
singleton bucket per task, so every non-empty bucket holds exactly one
task. -/
theorem C4_amended (capacity : ℚ) (tasks : List Task)
    (_hcap : capacity ≤ 0) (hne : tasks ≠ [])
    (hover : ∀ t ∈ tasks, capacity < t.hours) :
    distribute_tasks tasks capacity = oversizedSchedule 0 tasks ∧
    ∀ b ∈ distribute_tasks tasks capacity, b.2.length ≤ 1 := by
  have he : distribute_tasks tasks capacity = oversizedSchedule 0 tasks := by
    unfold distribute_tasks
    rw [if_neg (by simpa [List.isEmpty_iff] using hne)]
    rw [distributeGo_oversized capacity tasks hover]
    simp
  refine ⟨he, ?_⟩
  rw [he]
  exact oversizedSchedule_buckets tasks 0

/-- C4 witness: the amended statement at capacity -1 with a single 1-hour
task. -/
theorem C4_witness :
    distribute_tasks [⟨"A", 1, none⟩] (-1 : ℚ) =
        oversizedSchedule 0 [⟨"A", 1, none⟩] ∧
    ∀ b ∈ distribute_tasks [⟨"A", 1, none⟩] (-1 : ℚ), b.2.length ≤ 1 :=
  C4_amended (-1) [⟨"A", 1, none⟩] (by norm_num) (by simp)
    (by intro t ht; simp at ht; rw [ht]; norm_num)

/-- C9: for every capacity, distributing the empty task list yields the empty
schedule, with no buckets at all. -/
theorem C9_empty_schedule (capacity : ℚ) : distribute_tasks [] capacity = [] := rfl

/-- C10: a task whose hours strictly exceed the capacity arriving while the
current day is empty makes `distribute_tasks` emit an empty bucket before the
bucket holding the task: a 10-hour task at capacity 6 yields an empty "Day 1"
followed by "Day 2" with the task, so schedules may contain empty buckets. -/
theorem C10_empty_bucket :
    distribute_tasks [⟨"huge", 10, none⟩] 6 =
      [("Day 1", []), ("Day 2", [⟨"huge", 10, none⟩])] ∧
    ¬ (∀ b ∈ distribute_tasks [⟨"huge", 10, none⟩] 6, b.2 ≠ []) := by
  have he : distribute_tasks [⟨"huge", 10, none⟩] 6 =
      [("Day 1", []), ("Day 2", [⟨"huge", 10, none⟩])] := by
    norm_num [distribute_tasks, distributeGo]
    decide
  refine ⟨he, ?_⟩
  intro h
  exact h ("Day 1", []) (by rw [he]; simp) rfl

/-! ## Models of the Python string and number primitives used by `parse_tasks` -/

/-- Python `str.isspace` for a single character: the characters stripped by
`str.strip()` with no argument. -/
def pyIsSpace (c : Char) : Bool :=
  c = ' ' || c = '\t' || c = '\n' || c = '\x0b' || c = '\x0c' || c = '\r' ||
  c = '\x1c' || c = '\x1d' || c = '\x1e' || c = '\x1f' || c = '\x85' ||
  c = '\u00a0' || c = '\u1680' || (0x2000 ≤ c.val && c.val ≤ 0x200a) ||
  c = '\u2028' || c = '\u2029' || c = '\u202f' || c = '\u205f' || c = '\u3000'

/-- The line boundaries recognised by Python `str.splitlines` (other than the
two-character boundary `"\r\n"`, handled separately). -/
def isLineSep (c : Char) : Bool :=
  c = '\n' || c = '\r' || c = '\x0b' || c = '\x0c' ||
  c = '\x1c' || c = '\x1d' || c = '\x1e' || c = '\x85' ||
  c = '\u2028' || c = '\u2029'

/-- Python `str.splitlines`: a trailing line boundary does not open an empty
final line, and a final chunk without a boundary still forms a line. -/
def splitlinesAux : List Char → List Char → List String
  | [], acc => if acc.isEmpty then [] else [⟨acc.reverse⟩]
  | '\r' :: '\n' :: rest, acc => (⟨acc.reverse⟩ : String) :: splitlinesAux rest []
  | c :: rest, acc =>
      if isLineSep c then (⟨acc.reverse⟩ : String) :: splitlinesAux rest []
      else splitlinesAux rest (c :: acc)

/-- Python `raw_text.splitlines()`. -/
def pySplitlines (s : String) : List String := splitlinesAux s.data []

/-- Python `line.strip()`. -/
def pyStrip (s : String) : String :=
  ⟨((s.data.dropWhile pyIsSpace).reverse.dropWhile pyIsSpace).reverse⟩

/-- Python `line.split("|")`: always at least one part; an empty string gives
one empty part. -/
def splitPipeAux : List Char → List Char → List String
  | [], acc => [⟨acc.reverse⟩]
  | '|' :: rest, acc => (⟨acc.reverse⟩ : String) :: splitPipeAux rest []
  | c :: rest, acc => splitPipeAux rest (c :: acc)

/-- Python `line.split("|")` on a string. -/
def pySplitPipe (s : String) : List String := splitPipeAux s.data []

/-- The list `[part.strip() for part in line.split("|")]`. -/
def partsOf (line : String) : List String := (pySplitPipe line).map pyStrip

/-- Numeric value of an ASCII digit. -/
def digitVal (c : Char) : Nat := c.toNat - '0'.toNat

/-- Reads a maximal run of ASCII digits in which single underscores may occur
between two digits (Python numeric-literal underscore rule), accumulating the
value and the count of digits read; stops before an underscore not followed
by a digit. -/
def digitsGroupAux : List Char → Nat → Nat → Nat × Nat × List Char
  | '_' :: d :: rest, v, n =>
      if d.isDigit then digitsGroupAux rest (10 * v + digitVal d) (n + 1)
      else (v, n, '_' :: d :: rest)
  | c :: rest, v, n =>
      if c.isDigit then digitsGroupAux rest (10 * v + digitVal c) (n + 1)
      else (v, n, c :: rest)
  | [], v, n => (v, n, [])

/-- A digit group must begin with a digit (a leading underscore is not
consumed). -/
def digitsGroup (cs : List Char) : Option (Nat × Nat × List Char) :=
  match cs with
  | c :: _ => if c.isDigit then some (digitsGroupAux cs 0 0) else none
  | [] => none

/-- Grammar pass of Python `float(value)` on a stripped string: an optional
sign, then decimal digits with an optional fractional part and an optional
decimal exponent, with Python's underscore rule; the whole string must be
consumed and at least one mantissa digit is required.  Returns the sign
(`true` for negative), the integer-part value, the fractional-part value, the
count of fractional digits, and the signed exponent.  The non-finite
spellings `inf`/`infinity`/`nan` lie outside the rational domain of this
model and are treated as unparseable; digits are ASCII. -/
def pyFloatParse (p0 : List Char) : Option (Bool × Nat × Nat × Nat × Int) :=
  let sp : Bool × List Char := match p0 with
    | '+' :: r => (false, r)
    | '-' :: r => (true, r)
    | _ => (false, p0)
  let ip := match digitsGroup sp.2 with
    | some (v, n, r) => (v, n, r)
    | none => (0, 0, sp.2)
  let fp := match ip.2.2 with
    | '.' :: r =>
        (match digitsGroup r with
         | some (v, n, r2) => (v, n, r2)
         | none => (0, 0, r))
    | _ => (0, 0, ip.2.2)
  if ip.2.1 + fp.2.1 = 0 then none
  else
    match fp.2.2 with
    | [] => some (sp.1, ip.1, fp.1, fp.2.1, 0)
    | e :: r =>
        if e = 'e' || e = 'E' then
          let ep : Int × List Char := match r with
            | '+' :: r2 => ((1 : Int), r2)
            | '-' :: r2 => ((-1 : Int), r2)
            | _ => ((1 : Int), r)
          match digitsGroup ep.2 with
          | some (v, _, r2) =>
              if r2.isEmpty then some (sp.1, ip.1, fp.1, fp.2.1, ep.1 * v) else none
          | none => none
        else none

/-- Exact rational value of a parsed float literal: an absent exponent is the
exponent 0, so the value is sign times mantissa times a power of ten. -/
def floatVal : Bool × Nat × Nat × Nat × Int → ℚ
  | (neg, iv, fv, flen, ex) =>
      (if neg then (-1 : ℚ) else 1) * ((iv : ℚ) + (fv : ℚ) / (10 : ℚ) ^ flen) *
        (10 : ℚ) ^ ex

/-- Python `float(value)` on a stripped string, as an exact rational. -/
def pyFloat (s : String) : Option ℚ := (pyFloatParse s.data).map floatVal

/-- Gregorian leap-year rule, as used by `datetime.date`. -/
def isLeap (y : Nat) : Bool := y % 4 = 0 && (y % 100 ≠ 0 || y % 400 = 0)

/-- Number of days in a month, as validated by `datetime.date`. -/
def daysInMonth (y m : Nat) : Nat :=
  if m = 2 then (if isLeap y then 29 else 28)
  else if m = 4 || m = 6 || m = 9 || m = 11 then 30 else 31

/-- The `%m` directive of `strptime`: `1[0-2] | 0[1-9] | [1-9]`, first
alternative that matches (no backtracking is ever needed, since a two-digit
match is never followed by the `-` that the one-digit fallback would
require). -/
def monthChars : List Char → Option (Nat × List Char)
  | '1' :: c :: rest =>
      if '0' ≤ c && c ≤ '2' then some (10 + digitVal c, rest)
      else some (1, c :: rest)
  | '0' :: c :: rest =>
      if '1' ≤ c && c ≤ '9' then some (digitVal c, rest) else none
  | c :: rest =>
      if '1' ≤ c && c ≤ '9' then some (digitVal c, rest) else none
  | [] => none

/-- The `%d` directive of `strptime`: `3[01] | [12][0-9] | 0[1-9] | [1-9]`,
first alternative that matches. -/
def dayChars : List Char → Option (Nat × List Char)
  | '3' :: c :: rest =>
      if c = '0' || c = '1' then some (30 + digitVal c, rest)
      else some (3, c :: rest)
  | '0' :: c :: rest =>
      if '1' ≤ c && c ≤ '9' then some (digitVal c, rest) else none
  | c1 :: c2 :: rest =>
      if (c1 = '1' || c1 = '2') && c2.isDigit then
        some (10 * digitVal c1 + digitVal c2, rest)
      else if '1' ≤ c1 && c1 ≤ '9' then some (digitVal c1, c2 :: rest)
      else none
  | [c] => if '1' ≤ c && c ≤ '9' then some (digitVal c, []) else none
  | [] => none

/-- Python `datetime.strptime(value, "%Y-%m-%d").date()`: exactly four digits
of year, a dash, a one- or two-digit month, a dash, a one- or two-digit day;
the whole string must be consumed, and the triple must be a real calendar
date with year at least 1 (digits are ASCII). -/
def parseDate (s : String) : Option PyDate :=
  match s.data with
  | y1 :: y2 :: y3 :: y4 :: '-' :: rest =>
      if y1.isDigit && y2.isDigit && y3.isDigit && y4.isDigit then
        let y := 1000 * digitVal y1 + 100 * digitVal y2 + 10 * digitVal y3 + digitVal y4
        match monthChars rest with
        | some (m, rest2) =>
            match rest2 with
            | '-' :: rest3 =>
                match dayChars rest3 with
                | some (d, rest4) =>
                    if rest4.isEmpty && 1 ≤ y && d ≤ daysInMonth y m then
                      some ⟨y, m, d⟩
                    else none
                | none => none
            | _ => none
        | none => none
      else none
  | _ => none

/-! ## Task parser (`parse_tasks`) -/

/-- The error strings `f"Line {line_no}: ..."`. -/
def lineMsg (line_no : Nat) (msg : String) : String :=
  "Line " ++ toString line_no ++ ": " ++ msg

/-- What one iteration of the `parse_tasks` loop does with a line: skip it
silently (blank), append a task, or append one error string. -/
inductive LineOutcome where
  | blank : LineOutcome
  | task : Task → LineOutcome
  | err : String → LineOutcome
deriving DecidableEq, Repr

/-- The due-date step of the `parse_tasks` loop body, reached once the name
and hours of the line are known: parse `parts[2]` as `%Y-%m-%d` when present
and non-empty (its failure is the line's error), otherwise leave the due date
unset, and append the task. -/
def dueDateStep (line_no : Nat) (parts : List String) (hours : ℚ) : LineOutcome :=
  match parts[2]? with
  | some v =>
      if v ≠ "" then
        match parseDate v with
        | some d => .task ⟨parts.headI, hours, some d⟩
        | none =>
            .err (lineMsg line_no
              ("Due date must be YYYY-MM-DD (got '" ++ v ++ "')."))
      else .task ⟨parts.headI, hours, none⟩
  | none => .task ⟨parts.headI, hours, none⟩

/-- The body of the `parse_tasks` loop for the line numbered `line_no`:
skip blank lines; split on `|` and strip the parts; require a non-empty name;
parse the hours field as a float if present and non-empty, defaulting to 1.0;
then the due-date step; the first failing field produces the line's error. -/
def parseLine (line_no : Nat) (line : String) : LineOutcome :=
  if pyStrip line = "" then .blank
  else if (partsOf line).headI = "" then
    .err (lineMsg line_no "Task name is required.")
  else
    match (partsOf line)[1]? with
    | some v =>
        if v ≠ "" then
          match pyFloat v with
          | some hours => dueDateStep line_no (partsOf line) hours
          | none =>
              .err (lineMsg line_no
                ("Hours must be a number (got '" ++ v ++ "')."))
        else dueDateStep line_no (partsOf line) 1
    | none => dueDateStep line_no (partsOf line) 1

/-- Python `enumerate(lines, start)`. -/
def pyEnum (start : Nat) : List String → List (Nat × String)
  | [] => []
  | l :: ls => (start, l) :: pyEnum (start + 1) ls

/-- One step of the accumulation of `tasks` and `errors` in `parse_tasks`. -/
def parseStep (acc : List Task × List String) (p : Nat × String) :
    List Task × List String :=
  match parseLine p.1 p.2 with
  | .blank => acc
  | .task t => (acc.1 ++ [t], acc.2)
  | .err e => (acc.1, acc.2 ++ [e])

/-- Parse newline separated tasks (`parse_tasks`). -/
def parse_tasks (raw_text : String) : ParseResult :=
  let r := (pyEnum 1 (pySplitlines raw_text)).foldl parseStep ([], [])
  ⟨r.1, r.2⟩

/-- The task contributed by a numbered line, when any. -/
def taskOf (p : Nat × String) : Option Task :=
  match parseLine p.1 p.2 with
  | .task t => some t
  | _ => none

/-- The error string contributed by a numbered line, when any. -/
def errOf (p : Nat × String) : Option String :=
  match parseLine p.1 p.2 with
  | .err e => some e
  | _ => none

lemma foldl_parseStep (ps : List (Nat × String)) :
    ∀ acc, ps.foldl parseStep acc =
      (acc.1 ++ ps.filterMap taskOf, acc.2 ++ ps.filterMap errOf) := by
  induction ps with
  | nil => intro acc; simp
  | cons p rest ih =>
      intro acc
      rw [List.foldl_cons, ih]
      cases hp : parseLine p.1 p.2 <;>
        simp [parseStep, taskOf, errOf, hp, List.filterMap_cons]

lemma parse_tasks_eq (raw : String) :
    parse_tasks raw =
      ⟨(pyEnum 1 (pySplitlines raw)).filterMap taskOf,
       (pyEnum 1 (pySplitlines raw)).filterMap errOf⟩ := by
  simp [parse_tasks, foldl_parseStep]

lemma length_filterMap_eq_length_filter {α β : Type} (f : α → Option β) (l : List α) :
    (l.filterMap f).length = (l.filter (fun a => (f a).isSome)).length := by
  induction l with
  | nil => rfl
  | cons a l ih => cases h : f a <;> simp [List.filterMap_cons, h, ih, List.filter_cons]

lemma pyEnum_map_fst (ls : List String) :
    ∀ s, (pyEnum s ls).map Prod.fst = List.range' s ls.length := by
  induction ls with
  | nil => intro s; rfl
  | cons l ls ih => intro s; simp [pyEnum, List.range'_succ, ih]

lemma dueDateStep_none {n : Nat} {parts : List String} {h : ℚ}
    (h2 : parts[2]? = none) :
    dueDateStep n parts h = .task ⟨parts.headI, h, none⟩ := by
  unfold dueDateStep
  rw [h2]

lemma dueDateStep_empty {n : Nat} {parts : List String} {h : ℚ}
    (h2 : parts[2]? = some "") :
    dueDateStep n parts h = .task ⟨parts.headI, h, none⟩ := by
  unfold dueDateStep
  rw [h2]
  simp

lemma dueDateStep_bad {n : Nat} {parts : List String} {h : ℚ} {v : String}
    (h2 : parts[2]? = some v) (hv : v ≠ "") (hd : parseDate v = none) :
    dueDateStep n parts h =
      .err (lineMsg n ("Due date must be YYYY-MM-DD (got '" ++ v ++ "').")) := by
  unfold dueDateStep
  rw [h2]
  simp [hv, hd]

lemma dueDateStep_good {n : Nat} {parts : List String} {h : ℚ} {v : String}
    {d : PyDate} (h2 : parts[2]? = some v) (hv : v ≠ "") (hd : parseDate v = some d) :
    dueDateStep n parts h = .task ⟨parts.headI, h, some d⟩ := by
  unfold dueDateStep
  rw [h2]
  simp [hv, hd]

lemma dueDateStep_task {n : Nat} {parts : List String} {h : ℚ} {t : Task}
    (ht : dueDateStep n parts h = .task t) :
    t.name = parts.headI ∧ t.hours = h := by
  unfold dueDateStep at ht
  split at ht
  · split at ht
    · split at ht
      · injection ht with h2; subst h2; exact ⟨rfl, rfl⟩
      · exact absurd ht (by simp)
    · injection ht with h2; subst h2; exact ⟨rfl, rfl⟩
  · injection ht with h2; subst h2; exact ⟨rfl, rfl⟩

lemma dueDateStep_err {n : Nat} {parts : List String} {h : ℚ} {e : String}
    (he : dueDateStep n parts h = .err e) : ∃ s, e = lineMsg n s := by
  unfold dueDateStep at he
  split at he
  · split at he
    · split at he
      · exact absurd he (by simp)
      · exact ⟨_, by injection he with h2; exact h2.symm⟩
    · exact absurd he (by simp)
  · exact absurd he (by simp)

lemma parseLine_eq_due_of_none {n : Nat} {line : String}
    (hnb : ¬ pyStrip line = "") (hname : ¬ (partsOf line).headI = "")
    (h1 : (partsOf line)[1]? = none) :
    parseLine n line = dueDateStep n (partsOf line) 1 := by
  unfold parseLine
  rw [if_neg hnb, if_neg hname, h1]

lemma parseLine_eq_due_of_empty {n : Nat} {line : String}
    (hnb : ¬ pyStrip line = "") (hname : ¬ (partsOf line).headI = "")
    (h1 : (partsOf line)[1]? = some "") :
    parseLine n line = dueDateStep n (partsOf line) 1 := by
  unfold parseLine
  rw [if_neg hnb, if_neg hname, h1]
  simp

lemma parseLine_eq_due_of_float {n : Nat} {line : String} {v : String} {q : ℚ}
    (hnb : ¬ pyStrip line = "") (hname : ¬ (partsOf line).headI = "")
    (h1 : (partsOf line)[1]? = some v) (hv : v ≠ "") (hf : pyFloat v = some q) :
    parseLine n line = dueDateStep n (partsOf line) q := by
  unfold parseLine
  rw [if_neg hnb, if_neg hname, h1]
  simp [hv, hf]

lemma parseLine_err_hours {n : Nat} {line : String} {v : String}
    (hnb : ¬ pyStrip line = "") (hname : ¬ (partsOf line).headI = "")
    (h1 : (partsOf line)[1]? = some v) (hv : v ≠ "") (hf : pyFloat v = none) :
    parseLine n line =
      .err (lineMsg n ("Hours must be a number (got '" ++ v ++ "').")) := by
  unfold parseLine
  rw [if_neg hnb, if_neg hname, h1]
  simp [hv, hf]

lemma parseLine_err_msg {n : Nat} {l : String} {e : String}
    (he : parseLine n l = .err e) : ∃ s, e = lineMsg n s := by
  unfold parseLine at he
  split at he
  · exact absurd he (by simp)
  · split at he
    · exact ⟨_, by injection he with h2; exact h2.symm⟩
    · split at he
      · split at he
        · split at he
          · exact dueDateStep_err he
          · exact ⟨_, by injection he with h2; exact h2.symm⟩
        · exact dueDateStep_err he
      · exact dueDateStep_err he

lemma parse_tasks_tasks (raw : String) :
    (parse_tasks raw).tasks = (pyEnum 1 (pySplitlines raw)).filterMap taskOf := by
  rw [parse_tasks_eq]

lemma parse_tasks_errors (raw : String) :
    (parse_tasks raw).errors = (pyEnum 1 (pySplitlines raw)).filterMap errOf := by
  rw [parse_tasks_eq]

lemma errOf_some {p : Nat × String} {e : String} (he : errOf p = some e) :
    parseLine p.1 p.2 = .err e := by
  unfold errOf at he
  split at he
  · next e2 heq => injection he with h2; rw [heq, h2]
  · exact absurd he (by simp)

lemma taskOf_some {p : Nat × String} {t : Task} (ht : taskOf p = some t) :
    parseLine p.1 p.2 = .task t := by
  unfold taskOf at ht
  split at ht
  · next t2 heq => injection ht with h2; rw [heq, h2]
  · exact absurd ht (by simp)

lemma parseLine_blank {n : Nat} {line : String} (hb : pyStrip line = "") :
    parseLine n line = .blank := by
  unfold parseLine
  rw [if_pos hb]

lemma parseLine_err_name {n : Nat} {line : String}
    (hnb : ¬ pyStrip line = "") (hname : (partsOf line).headI = "") :
    parseLine n line = .err (lineMsg n "Task name is required.") := by
  unfold parseLine
  rw [if_neg hnb, if_pos hname]

lemma parseLine_task_hours_field {n : Nat} {line : String} {t : Task}
    (ht : parseLine n line = .task t) :
    (((partsOf line)[1]? = none ∨ (partsOf line)[1]? = some "") ∧ t.hours = 1) ∨
    ∃ v, (partsOf line)[1]? = some v ∧ v ≠ "" ∧ pyFloat v = some t.hours := by
  have hnb : ¬ pyStrip line = "" := by
    intro hb
    rw [parseLine_blank hb] at ht
    exact absurd ht (by simp)
  have hname : ¬ (partsOf line).headI = "" := by
    intro hn
    rw [parseLine_err_name hnb hn] at ht
    exact absurd ht (by simp)
  cases h1 : (partsOf line)[1]? with
  | none =>
      rw [parseLine_eq_due_of_none hnb hname h1] at ht
      exact Or.inl ⟨Or.inl rfl, (dueDateStep_task ht).2⟩
  | some v =>
      by_cases hv : v = ""
      · subst hv
        rw [parseLine_eq_due_of_empty hnb hname h1] at ht
        exact Or.inl ⟨Or.inr rfl, (dueDateStep_task ht).2⟩
      · cases hf : pyFloat v with
        | none =>
            rw [parseLine_err_hours hnb hname h1 hv hf] at ht
            exact absurd ht (by simp)
        | some q =>
            rw [parseLine_eq_due_of_float hnb hname h1 hv hf] at ht
            exact Or.inr ⟨v, rfl, hv, by rw [hf, (dueDateStep_task ht).2]⟩

/-! ## Parser claims -/

/-- C5: for every input with at least one malformed line, `parse_tasks` still
returns exactly the tasks of the well-formed lines, in their order, together
with exactly one error entry per malformed line, in their order, every error
citing its own line's number; `pyEnum` numbers the split lines 1-based. -/
theorem C5_error_accumulation (raw : String)
    (_hmal : ∃ p ∈ pyEnum 1 (pySplitlines raw), (errOf p).isSome) :
    (parse_tasks raw).tasks = (pyEnum 1 (pySplitlines raw)).filterMap taskOf ∧
    (parse_tasks raw).errors = (pyEnum 1 (pySplitlines raw)).filterMap errOf ∧
    (parse_tasks raw).errors.length =
      ((pyEnum 1 (pySplitlines raw)).filter (fun p => (errOf p).isSome)).length ∧
    (pyEnum 1 (pySplitlines raw)).map Prod.fst =
      List.range' 1 (pySplitlines raw).length ∧
    (∀ p ∈ pyEnum 1 (pySplitlines raw), ∀ e, errOf p = some e →
      ∃ s, e = lineMsg p.1 s) := by
  refine ⟨parse_tasks_tasks raw, parse_tasks_errors raw, ?_, pyEnum_map_fst _ 1, ?_⟩
  · rw [parse_tasks_errors raw]
    exact length_filterMap_eq_length_filter _ _
  · intro p _ e he
    exact parseLine_err_msg (errOf_some he)

/-- C5 witness: the error list of a two-line input whose second line has
non-numeric hours. -/
theorem C5_witness :
    (parse_tasks "Good | 2\nBad | abc").errors =
      (pyEnum 1 (pySplitlines "Good | 2\nBad | abc")).filterMap errOf :=
  (C5_error_accumulation "Good | 2\nBad | abc" (by decide)).2.1

/-- C6: on a non-blank line with a non-empty name, an absent or empty hours
field gives the produced task hours 1.0, while a present, non-empty,
non-numeric hours field produces no task but exactly the error
"Line {n}: Hours must be a number (got '{value}')." with the trimmed field
as the value. -/
theorem C6_hours_default_and_error (n : Nat) (line : String)
    (hnb : pyStrip line ≠ "") (hname : (partsOf line).headI ≠ "") :
    (((partsOf line)[1]? = none ∨ (partsOf line)[1]? = some "") →
      ∀ t, parseLine n line = .task t → t.hours = 1) ∧
    (∀ v, (partsOf line)[1]? = some v → v ≠ "" → pyFloat v = none →
      parseLine n line =
        .err (lineMsg n ("Hours must be a number (got '" ++ v ++ "')."))) := by
  constructor
  · rintro (h1 | h1) t ht
    · rw [parseLine_eq_due_of_none hnb hname h1] at ht
      exact (dueDateStep_task ht).2
    · rw [parseLine_eq_due_of_empty hnb hname h1] at ht
      exact (dueDateStep_task ht).2
  · intro v h1 hv hf
    exact parseLine_err_hours hnb hname h1 hv hf

/-- C6 witness: the line "Bad | abc" produces the invalid-hours error citing
line 1 and the trimmed value. -/
theorem C6_witness :
    parseLine 1 "Bad | abc" =
      .err (lineMsg 1 ("Hours must be a number (got '" ++ "abc" ++ "').")) :=
  (C6_hours_default_and_error 1 "Bad | abc" (by decide) (by decide)).2 "abc"
    (by decide) (by decide) (by decide)

/-- Modelled from the spec's words ("parse strictly as `YYYY-MM-DD`", "must
conform to an ISO calendar date (`YYYY-MM-DD`)"): a strict ISO date string is
exactly ten characters, four ASCII digits, a dash, two digits, a dash, two
digits, forming a real calendar date with year at least 1. -/
def isStrictISO (s : String) : Bool :=
  match s.data with
  | [y1, y2, y3, y4, s1, m1, m2, s2, d1, d2] =>
      y1.isDigit && y2.isDigit && y3.isDigit && y4.isDigit && s1 = '-' &&
      m1.isDigit && m2.isDigit && s2 = '-' && d1.isDigit && d2.isDigit &&
      (1 ≤ 1000 * digitVal y1 + 100 * digitVal y2 + 10 * digitVal y3 + digitVal y4) &&
      (1 ≤ 10 * digitVal m1 + digitVal m2) &&
      (10 * digitVal m1 + digitVal m2 ≤ 12) &&
      (1 ≤ 10 * digitVal d1 + digitVal d2) &&
      (10 * digitVal d1 + digitVal d2 ≤
        daysInMonth
          (1000 * digitVal y1 + 100 * digitVal y2 + 10 * digitVal y3 + digitVal y4)
          (10 * digitVal m1 + digitVal m2))
  | _ => false

/-- C7 counterexample: the due-date field "2024-7-1" is not a strict ISO
`YYYY-MM-DD` date (month and day are not zero-padded), yet the parser accepts
it and produces a task due 2024-07-01 instead of recording an error. -/
theorem C7_counterexample :
    isStrictISO "2024-7-1" = false ∧
    (∃ t, parseLine 1 "A | 1 | 2024-7-1" = .task t ∧
      t.due_date = some ⟨2024, 7, 1⟩) :=
  ⟨by decide, ⟨_, rfl, rfl⟩⟩

/-- C7 amended: on a non-blank line with a non-empty name and a valid (or
defaulted) hours field, an absent or empty due-date field leaves the due date
unset; a present due-date field is parsed as `strptime` does for `%Y-%m-%d`
(four-digit year, one- or two-digit month and day, validated as a real
calendar date, leading zeros optional); on failure no task is produced and
the error "Line {n}: Due date must be YYYY-MM-DD (got '{value}')." is
recorded, and on success the task carries the parsed date. -/
theorem C7_due_date (n : Nat) (line : String)
    (hnb : pyStrip line ≠ "") (hname : (partsOf line).headI ≠ "")
    (hhours : (partsOf line)[1]? = none ∨ (partsOf line)[1]? = some "" ∨
      ∃ v q, (partsOf line)[1]? = some v ∧ v ≠ "" ∧ pyFloat v = some q) :
    (((partsOf line)[2]? = none ∨ (partsOf line)[2]? = some "") →
      ∃ t, parseLine n line = .task t ∧ t.due_date = none) ∧
    (∀ v, (partsOf line)[2]? = some v → v ≠ "" → parseDate v = none →
      parseLine n line =
        .err (lineMsg n ("Due date must be YYYY-MM-DD (got '" ++ v ++ "')."))) ∧
    (∀ v d, (partsOf line)[2]? = some v → v ≠ "" → parseDate v = some d →
      ∃ t, parseLine n line = .task t ∧ t.due_date = some d) := by
  have hdue : ∃ q, parseLine n line = dueDateStep n (partsOf line) q := by
    rcases hhours with h1 | h1 | ⟨v, q, h1, hv, hf⟩
    · exact ⟨1, parseLine_eq_due_of_none hnb hname h1⟩
    · exact ⟨1, parseLine_eq_due_of_empty hnb hname h1⟩
    · exact ⟨q, parseLine_eq_due_of_float hnb hname h1 hv hf⟩
  obtain ⟨q, hq⟩ := hdue
  refine ⟨?_, ?_, ?_⟩
  · rintro (h2 | h2)
    · exact ⟨_, by rw [hq, dueDateStep_none h2], rfl⟩
    · exact ⟨_, by rw [hq, dueDateStep_empty h2], rfl⟩
  · intro v h2 hv hd
    rw [hq]
    exact dueDateStep_bad h2 hv hd
  · intro v d h2 hv hd
    exact ⟨_, by rw [hq, dueDateStep_good h2 hv hd], rfl⟩

/-- C7 witness: a malformed month yields the due-date error on line 1. -/
theorem C7_witness :
    parseLine 1 "A | 2 | 1999-13-01" =
      .err (lineMsg 1 ("Due date must be YYYY-MM-DD (got '" ++ "1999-13-01" ++ "').")) :=
  (C7_due_date 1 "A | 2 | 1999-13-01" (by decide) (by decide)
      (Or.inr (Or.inr ⟨"2", floatVal (false, 2, 0, 0, 0), by decide, by decide, rfl⟩))).2.1
    "1999-13-01" (by decide) (by decide) (by decide)

/-- C8 counterexample: the line "Chore | -3" parses to a task whose hours are
-3, so not every parsed task has strictly positive hours. -/
theorem C8_counterexample :
    ¬ (∀ t ∈ (parse_tasks "Chore | -3").tasks, 0 < t.hours) := by
  intro h
  have hm := h _ (List.mem_cons_self _ _)
  have hneg : ¬ (0 < floatVal (true, 3, 0, 0, 0)) := by norm_num [floatVal]
  exact hneg hm

/-- C8 amended: every task returned by `parse_tasks` originates from one of
the input's numbered lines, and its hours are bound to that line's own hours
field: exactly the default 1.0 when the field is absent or empty, and
otherwise exactly the value `float()` parses from the non-empty field, which
is taken as-is and may be zero or negative. -/
theorem C8_hours_provenance (raw : String) :
    ∀ t ∈ (parse_tasks raw).tasks, ∃ p ∈ pyEnum 1 (pySplitlines raw),
      taskOf p = some t ∧
      ((((partsOf p.2)[1]? = none ∨ (partsOf p.2)[1]? = some "") ∧ t.hours = 1) ∨
       ∃ v, (partsOf p.2)[1]? = some v ∧ v ≠ "" ∧ pyFloat v = some t.hours) := by
  intro t ht
  rw [parse_tasks_tasks] at ht
  simp only [List.mem_filterMap] at ht
  obtain ⟨p, hp, hpt⟩ := ht
  exact ⟨p, hp, hpt, parseLine_task_hours_field (taskOf_some hpt)⟩

/-- C8 witness: the task parsed from the line "W" comes from line 1, whose
hours field is absent, so its hours are the default 1. -/
theorem C8_witness :
    ∃ p ∈ pyEnum 1 (pySplitlines "W"),
      taskOf p = some ⟨"W", 1, none⟩ ∧
      ((((partsOf p.2)[1]? = none ∨ (partsOf p.2)[1]? = some "") ∧
          (⟨"W", 1, none⟩ : Task).hours = 1) ∨
       ∃ v, (partsOf p.2)[1]? = some v ∧ v ≠ "" ∧
          pyFloat v = some (⟨"W", 1, none⟩ : Task).hours) :=
  C8_hours_provenance "W" ⟨"W", 1, none⟩ (List.mem_cons_self _ _)

end App
